import Mathlib

/-
  Verification development for the NewsWave-AI-Trader core:
  the strategy evaluators (strategies/ou_arb.py, strategies/sniper.py),
  the rule-based decision engine (strategies/ai_pm.py), the strategy
  router (strategies/router.py) and the backtest execution engine
  (engine/backtest.py), shallowly embedded over ℚ (Python floats are
  modelled as exact rationals; Python dict fields as Option ℚ, where
  none models an absent key).
-/

namespace NewsWave

/-- Strategy identifiers: the two valid values of `chosen_strategy`. -/
inductive Strat
  | ouArb
  | sniper
deriving DecidableEq, Repr

/-- Risk modes: the three valid values of `risk_mode`. -/
inductive RiskMode
  | defensive
  | normal
  | aggressive
deriving DecidableEq, Repr

/-- The tick's `mode` hint string: `"arb"`, `"sniper"`, or any other string. -/
inductive Mode
  | arb
  | sniper
  | other
deriving DecidableEq, Repr

/-- The `confidence_level` field of a historical pattern: `"low"`, `"medium"`,
`"high"`, or any other string. -/
inductive ConfLevel
  | low
  | medium
  | high
  | other
deriving DecidableEq, Repr

/-- The optional `historical_pattern` entry of a tick
(strategies/ai_pm.py module docstring); only the fields read by
`decide_strategy_rule_based` are modelled. -/
structure HistPattern where
  avg_return_3d : Option ℚ := none
  confidence_level : Option ConfLevel := none
  pattern_name : Option String := none
deriving DecidableEq, Repr

/-- A market-state dictionary (one tick).  Every numeric field is optional:
`none` models an absent key.  `has_position` models
`market_state.get("has_position", False)`. -/
structure Tick where
  pm_ask : Option ℚ := none
  pm_bid : Option ℚ := none
  op_ask : Option ℚ := none
  op_bid : Option ℚ := none
  best_ask : Option ℚ := none
  best_bid : Option ℚ := none
  current_ask : Option ℚ := none
  current_bid : Option ℚ := none
  ask : Option ℚ := none
  bid : Option ℚ := none
  price : Option ℚ := none
  mid_price : Option ℚ := none
  pm_liquidity : Option ℚ := none
  op_liquidity : Option ℚ := none
  gas_cost_usd : Option ℚ := none
  position_size : Option ℚ := none
  mode : Option Mode := none
  has_position : Bool := false
  historical_pattern : Option HistPattern := none
deriving DecidableEq, Repr

/-- Python `x or y` on two optional numbers: the first operand if it is
present and truthy (nonzero), else the second operand. -/
def orQ (x y : Option ℚ) : Option ℚ :=
  match x with
  | some v => if v = 0 then y else some v
  | none => y

/-- Python `x or d` where `d` is a plain number: the value of `x` if present
and truthy (nonzero), else `d`. -/
def qOr (x : Option ℚ) (d : ℚ) : ℚ :=
  match x with
  | some v => if v = 0 then d else v
  | none => d

/-- Order side, the `side` string after `.upper()`: `"BUY"` or `"SELL"`. -/
inductive Side
  | buy
  | sell
deriving DecidableEq, Repr

/-- Modelled from the spec: `strategies/base.py` (which defines
`OrderInstruction` and `BaseStrategy`) is not among the sources; spec §3
gives the shape `{side: BUY|SELL, size: float, price: float|null, meta}`.
The free-form `meta` map is not modelled (no claim depends on it). -/
structure OrderInstruction where
  side : Side
  size : ℚ
  price : Option ℚ
deriving DecidableEq, Repr

/-- A record of an executed trade (engine/backtest.py `Trade`);
`timestamp` and `meta` are not modelled. -/
structure Trade where
  tick : ℕ
  side : Side
  price : ℚ
  size : ℚ
  cost : ℚ
  position_after : ℚ
  cash_after : ℚ
deriving DecidableEq, Repr

/-- The engine's accounting state: `self.cash` and `self.position`. -/
structure Acct where
  cash : ℚ
  position : ℚ
deriving DecidableEq, Repr

/-- Source `BacktestEngine._get_execution_price`: for BUY try
`best_ask or pm_ask or ask or price or mid_price` (Python `or` keeps the
first truthy value), for SELL try `best_bid or op_bid or bid or price or
mid_price`; return the result only if it is truthy and positive. -/
def getExecutionPrice (t : Tick) (side : Side) : Option ℚ :=
  let p :=
    match side with
    | .buy => orQ t.best_ask (orQ t.pm_ask (orQ t.ask (orQ t.price t.mid_price)))
    | .sell => orQ t.best_bid (orQ t.op_bid (orQ t.bid (orQ t.price t.mid_price)))
  match p with
  | some v => if 0 < v then some v else none
  | none => none

/-- The local `bid` of `_get_mark_price`: `best_bid or op_bid or bid or 0`. -/
def bidChain (t : Tick) : ℚ := qOr t.best_bid (qOr t.op_bid (qOr t.bid 0))

/-- The local `ask` of `_get_mark_price`: `best_ask or pm_ask or ask or 0`. -/
def askChain (t : Tick) : ℚ := qOr t.best_ask (qOr t.pm_ask (qOr t.ask 0))

/-- Source `BacktestEngine._get_mark_price`: explicit `mid_price` if the key is
present; else the bid/ask midpoint when both truthy chains are positive;
else `price or bid or ask or 0.5`. -/
def getMarkPrice (t : Tick) : ℚ :=
  match t.mid_price with
  | some m => m
  | none =>
    if 0 < bidChain t ∧ 0 < askChain t then (bidChain t + askChain t) / 2
    else
      qOr t.price
        (if bidChain t = 0 then (if askChain t = 0 then (1/2 : ℚ) else askChain t)
         else bidChain t)

/-- The execution price actually used by `_execute_order`: the instruction's
explicit price when positive, else the market-state fallback chain. -/
def effectivePrice (t : Tick) (ins : OrderInstruction) : Option ℚ :=
  match ins.price with
  | some p => if 0 < p then some p else getExecutionPrice t ins.side
  | none => getExecutionPrice t ins.side

/-- Source `BacktestEngine._execute_order`: returns the new accounting state and
the trade record, or `none` (with the state unchanged) for a rejected
order.  BUY clamps size to `cash / price` when the notional exceeds cash;
SELL clamps size to the held position; a clamp to a non-positive size
rejects. -/
def executeOrder (a : Acct) (t : Tick) (tickIdx : ℕ) (ins : OrderInstruction) :
    Acct × Option Trade :=
  if ins.size ≤ 0 then (a, none)
  else
    match effectivePrice t ins with
    | none => (a, none)
    | some p =>
      if p ≤ 0 then (a, none)
      else
        match ins.side with
        | .buy =>
          if ins.size * p > a.cash then
            if a.cash / p ≤ 0 then (a, none)
            else
              (⟨a.cash - a.cash / p * p, a.position + a.cash / p⟩,
               some ⟨tickIdx, .buy, p, a.cash / p, a.cash / p * p,
                     a.position + a.cash / p, a.cash - a.cash / p * p⟩)
          else
            (⟨a.cash - ins.size * p, a.position + ins.size⟩,
             some ⟨tickIdx, .buy, p, ins.size, ins.size * p,
                   a.position + ins.size, a.cash - ins.size * p⟩)
        | .sell =>
          if ins.size > a.position then
            if a.position ≤ 0 then (a, none)
            else
              (⟨a.cash + a.position * p, a.position - a.position⟩,
               some ⟨tickIdx, .sell, p, a.position, a.position * p,
                     a.position - a.position, a.cash + a.position * p⟩)
          else
            (⟨a.cash + ins.size * p, a.position - ins.size⟩,
             some ⟨tickIdx, .sell, p, ins.size, ins.size * p,
                   a.position - ins.size, a.cash + ins.size * p⟩)

/-- The instruction loop inside `BacktestEngine.run` step 2: execute each
instruction in order, collecting the non-rejected trades. -/
def executeOrders (t : Tick) (tickIdx : ℕ) : Acct → List OrderInstruction → Acct × List Trade
  | a, [] => (a, [])
  | a, ins :: rest =>
    let r1 := executeOrder a t tickIdx ins
    let r2 := executeOrders t tickIdx r1.1 rest
    (r2.1, r1.2.toList ++ r2.2)

/-- A strategy as the engine drives it: `on_tick`, threading whatever
internal state the strategy keeps across ticks. -/
def StrategyStep (σ : Type) : Type := σ → Tick → σ × List OrderInstruction

/-- The main loop of `BacktestEngine.run`: per tick, ask the strategy for
instructions, execute them, and append one equity sample
`cash + position * mark_price`.  Returns the final accounting state, the
equity curve and the trade list. -/
def runLoop {σ : Type} (strat : StrategyStep σ) :
    σ → Acct → ℕ → List Tick → Acct × List ℚ × List Trade
  | _, a, _, [] => (a, [], [])
  | s, a, i, t :: rest =>
    let st := strat s t
    let ex := executeOrders t i a st.2
    let e := ex.1.cash + ex.1.position * getMarkPrice t
    let r := runLoop strat st.1 ex.1 (i + 1) rest
    (r.1, e :: r.2.1, ex.2 ++ r.2.2)

/-- The drawdown tracking of `BacktestEngine.run` step 4, as a fold over
the equity curve: running peak and maximum of `(peak - equity) / peak`. -/
def maxDrawdownFrom (peak mdd : ℚ) : List ℚ → ℚ
  | [] => mdd
  | e :: rest =>
    let peak' := if e > peak then e else peak
    let dd := if peak' > 0 then (peak' - e) / peak' else 0
    maxDrawdownFrom peak' (if dd > mdd then dd else mdd) rest

/-- The win/loss counting loop of `BacktestEngine._build_result`: each SELL
other than the first trade is a win when its price beats the immediately
preceding trade's price, else a loss.  The first component carries the
previous trade. -/
def winLossAux : Option Trade → List Trade → ℕ × ℕ
  | _, [] => (0, 0)
  | prev, tr :: rest =>
    let r := winLossAux (some tr) rest
    match prev with
    | none => r
    | some pv =>
      if tr.side = Side.sell then
        if tr.price > pv.price then (r.1 + 1, r.2) else (r.1, r.2 + 1)
      else r

/-- Win/loss counts over the full trade list. -/
def winLossCounts (ts : List Trade) : ℕ × ℕ := winLossAux none ts

/-- Python `max(xs) if xs else d`. -/
def listMaxD (d : ℚ) : List ℚ → ℚ
  | [] => d
  | x :: xs => xs.foldl max x

/-- Python `min(xs) if xs else d`. -/
def listMinD (d : ℚ) : List ℚ → ℚ
  | [] => d
  | x :: xs => xs.foldl min x

/-- The result aggregate (engine/backtest.py `BacktestResult`);
`strategy_name` is not modelled. -/
structure BacktestResult where
  initial_cash : ℚ
  final_cash : ℚ
  final_position : ℚ
  final_equity : ℚ
  total_return : ℚ
  total_trades : ℕ
  winning_trades : ℕ
  losing_trades : ℕ
  equity_curve : List ℚ
  trades : List Trade
  max_equity : ℚ
  min_equity : ℚ
  max_drawdown : ℚ
deriving DecidableEq, Repr

/-- Source `BacktestEngine._build_result`. -/
def buildResult (cash0 : ℚ) (a : Acct) (curve : List ℚ) (trades : List Trade)
    (mdd : ℚ) : BacktestResult :=
  let finalEquity := (curve.getLast?).getD cash0
  let totalReturn := if cash0 > 0 then (finalEquity - cash0) / cash0 else 0
  let wl := winLossCounts trades
  { initial_cash := cash0
    final_cash := a.cash
    final_position := a.position
    final_equity := finalEquity
    total_return := totalReturn
    total_trades := trades.length
    winning_trades := wl.1
    losing_trades := wl.2
    equity_curve := curve
    trades := trades
    max_equity := listMaxD cash0 curve
    min_equity := listMinD cash0 curve
    max_drawdown := mdd }

/-- Source `BacktestEngine.run`: reset, loop over the ticks, and build the result.
The source's early return on empty input produces exactly
`buildResult cash0 ⟨cash0, 0⟩ [] [] 0`, which this single path also yields. -/
def runEngine {σ : Type} (strat : StrategyStep σ) (s0 : σ) (cash0 : ℚ)
    (ticks : List Tick) : BacktestResult :=
  let r := runLoop strat s0 ⟨cash0, 0⟩ 0 ticks
  buildResult cash0 r.1 r.2.1 r.2.2 (maxDrawdownFrom cash0 0 r.2.1)

/-- The accounting state after running the engine over a tick sequence
(used to phrase per-tick properties about prefixes of a run). -/
def acctAfter {σ : Type} (strat : StrategyStep σ) (s0 : σ) (cash0 : ℚ)
    (ticks : List Tick) : Acct :=
  (runLoop strat s0 ⟨cash0, 0⟩ 0 ticks).1

/-- Parameters of `OUArbStrategy` with the constructor defaults
`min_profit_rate = 0.005`, `min_spread_multiplier = 0.5`. -/
structure OUArbParams where
  min_profit_rate : ℚ := 5/1000
  min_spread_multiplier : ℚ := 1/2
deriving DecidableEq, Repr

/-- Source `OUArbStrategy.compute_spread`. -/
def computeSpread (pmAsk opBid : ℚ) : ℚ := opBid - pmAsk

/-- The size used by `OUArbStrategy.on_tick`:
`min(pm_liquidity, op_liquidity)` when both are positive, else `100.0`. -/
def ouSize (t : Tick) : ℚ :=
  let pmLiq := t.pm_liquidity.getD 0
  let opLiq := t.op_liquidity.getD 0
  if 0 < pmLiq ∧ 0 < opLiq then min pmLiq opLiq else 100

/-- Source `OUArbStrategy.on_tick`: empty when `pm_ask`/`op_bid` are missing or
non-positive, or when the gross spread is strictly below
`min_profit_rate * min_spread_multiplier`; otherwise a BUY at `pm_ask` and
a SELL at `op_bid`. -/
def ouOnTick (ps : OUArbParams) (t : Tick) : List OrderInstruction :=
  match t.pm_ask, t.op_bid with
  | some pmAsk, some opBid =>
    if pmAsk ≤ 0 ∨ opBid ≤ 0 then []
    else if opBid - pmAsk < ps.min_profit_rate * ps.min_spread_multiplier then []
    else
      [⟨.buy, ouSize t, some pmAsk⟩, ⟨.sell, ouSize t, some opBid⟩]
  | _, _ => []

/-- Source `OUArbStrategy.is_opportunity`: the spread threshold test alone,
with absent prices defaulting to `0`. -/
def ouIsOpportunity (ps : OUArbParams) (t : Tick) : Bool :=
  let pmAsk := t.pm_ask.getD 0
  let opBid := t.op_bid.getD 0
  if pmAsk ≤ 0 ∨ opBid ≤ 0 then false
  else decide (opBid - pmAsk ≥ ps.min_profit_rate * ps.min_spread_multiplier)

/-- Parameters of `SniperStrategy` with the constructor defaults
`target_price = 0.50`, `min_gap = 0.02`, `position_size = 50.0`. -/
structure SniperParams where
  target_price : ℚ := 1/2
  min_gap : ℚ := 1/50
  position_size : ℚ := 50
deriving DecidableEq, Repr

/-- The entry branch of `SniperStrategy.on_tick`: require
`price_gap = target_price - best_ask ≥ min_gap` (an order is rejected only
when the gap is strictly below `min_gap`) and a strictly positive expected
profit `shares * target_price - (size + gas)` with `shares = size / best_ask`. -/
def sniperEntry (ps : SniperParams) (a gas size : ℚ) : List OrderInstruction :=
  if ps.target_price - a < ps.min_gap then []
  else
    let shares := size / a
    if shares * ps.target_price - (size + gas) ≤ 0 then []
    else [⟨.buy, shares, some a⟩]

/-- Source `SniperStrategy.on_tick`: resolve `best_ask or current_ask` and
`best_bid or current_bid`; bail out on a missing or non-positive ask;
take profit (SELL) when `has_position` and the bid beats the target;
otherwise run the entry rule. -/
def sniperOnTick (ps : SniperParams) (t : Tick) : List OrderInstruction :=
  match orQ t.best_ask t.current_ask with
  | none => []
  | some a =>
    if a ≤ 0 then []
    else
      let gas := t.gas_cost_usd.getD 0
      let size := t.position_size.getD ps.position_size
      match orQ t.best_bid t.current_bid with
      | some b =>
        if t.has_position ∧ b > ps.target_price then
          [⟨.sell, if 0 < b then size / b else 0, some b⟩]
        else sniperEntry ps a gas size
      | none => sniperEntry ps a gas size

/-- The `has_opportunity` flag of `SniperStrategy.calculate_opportunity`
(with the default position size, as `is_opportunity` calls it). -/
def sniperHasOpportunity (ps : SniperParams) (currentAsk gas : ℚ) : Bool :=
  let priceGap := ps.target_price - currentAsk
  let shares := if 0 < currentAsk then ps.position_size / currentAsk else 0
  let expectedProfit := shares * ps.target_price - (ps.position_size + gas)
  decide (priceGap ≥ ps.min_gap ∧ expectedProfit > 0 ∧ currentAsk > 0)

/-- Source `SniperStrategy.is_opportunity`: resolve
`best_ask or current_ask-with-default-0`, reject non-positive asks, then
run the entry test of `calculate_opportunity`. -/
def sniperIsOpportunity (ps : SniperParams) (t : Tick) : Bool :=
  let currentAsk := qOr t.best_ask (t.current_ask.getD 0)
  let gas := t.gas_cost_usd.getD 0
  if currentAsk ≤ 0 then false
  else sniperHasOpportunity ps currentAsk gas

/-- Source `LARGE_SPREAD` regime threshold (strategies/ai_pm.py). -/
def LARGE_SPREAD : ℚ := 1/10

/-- Source `DEEP_DISCOUNT` regime threshold (strategies/ai_pm.py). -/
def DEEP_DISCOUNT : ℚ := 42/100

/-- Source `HORIZON`: the default rolling-window size. -/
def HORIZON : ℕ := 5

/-- The per-tick feature record pushed into the regime window
(`AIPortfolioManager._extract_features`). -/
structure Features where
  spread : ℚ
  best_ask : ℚ
  mode : Option Mode
  is_arb_signal : Bool
  is_sniper_signal : Bool
deriving DecidableEq, Repr

/-- Source `AIPortfolioManager._extract_features`. -/
def extractFeatures (t : Tick) : Features :=
  let pmAsk := qOr t.pm_ask 0
  let opBid := qOr t.op_bid 0
  let bestAsk := qOr t.best_ask (qOr t.current_ask 0)
  let spread := if 0 < pmAsk ∧ 0 < opBid then opBid - pmAsk else 0
  { spread := spread
    best_ask := bestAsk
    mode := t.mode
    is_arb_signal := decide (spread > LARGE_SPREAD) || decide (t.mode = some Mode.arb)
    is_sniper_signal :=
      (decide (0 < bestAsk) && decide (bestAsk < DEEP_DISCOUNT))
        || decide (t.mode = some Mode.sniper) }

/-- The state of an `AIPortfolioManager` instance: the window capacity and
the rolling history (`deque(maxlen=horizon)`), oldest first. -/
structure PMState where
  horizon : ℕ := HORIZON
  history : List Features := []
deriving DecidableEq, Repr

/-- Source `deque(maxlen=horizon).append`: push on the right, evicting from the
left when over capacity. -/
def pushFeature (s : PMState) (f : Features) : PMState :=
  let h := s.history ++ [f]
  { s with history := h.drop (h.length - s.horizon) }

/-- Count of arb signals in the window
(`AIPortfolioManager._compute_regime_counts`). -/
def arbCount (h : List Features) : ℕ := h.countP (fun f => f.is_arb_signal)

/-- Count of sniper signals in the window. -/
def sniperCount (h : List Features) : ℕ := h.countP (fun f => f.is_sniper_signal)

/-- The base of a decision's human-readable `reason` string, as a symbolic
constructor carrying the numbers interpolated into the source's f-string. -/
inductive BaseReason
  | arbRegime (arbSignals histLen : ℕ)
  | sniperRegime (sniperSignals histLen : ℕ)
  | arbOpportunity
  | sniperSignal
  | arbSpread (spread : ℚ)
  | sniperAvailable
  | defaultFallback
deriving DecidableEq, Repr

/-- A decision's `reason`: the base message, the optional appended fallback
note, and the optional appended historical-pattern suffix
`(pattern_name, avg_return_3d, confidence_level)`. -/
structure Reason where
  base : BaseReason
  note : Option String := none
  histSuffix : Option (String × ℚ × Option ConfLevel) := none
deriving DecidableEq, Repr

/-- The decision dictionary returned by the decision engine. -/
structure DecisionResult where
  chosen_strategy : Strat
  risk_mode : RiskMode
  reason : Reason
  confidence : ℚ
deriving DecidableEq, Repr

/-- Source `AIPortfolioManager.decide`: push the tick's features, tally the
window, and decide by regime majority with single-tick tie-break rules.
Returns the updated state and the decision.  A fallback note is appended
to the reason only when it is a truthy (non-empty) string. -/
def pmDecide (s : PMState) (t : Tick) (note : Option String) :
    PMState × DecisionResult :=
  let noteN : Option String :=
    match note with
    | some str => if str = "" then none else some str
    | none => none
  let f := extractFeatures t
  let s' := pushFeature s f
  let nArb := arbCount s'.history
  let nSniper := sniperCount s'.history
  let len := s'.history.length
  let d : DecisionResult :=
    if nArb > nSniper then
      { chosen_strategy := .ouArb
        risk_mode := .defensive
        reason := { base := .arbRegime nArb len, note := noteN }
        confidence := min (6/10 + ((nArb : ℚ) / (len : ℚ)) * (35/100)) (95/100) }
    else if nSniper > nArb then
      { chosen_strategy := .sniper
        risk_mode := .aggressive
        reason := { base := .sniperRegime nSniper len, note := noteN }
        confidence := min (6/10 + ((nSniper : ℚ) / (len : ℚ)) * (3/10)) (9/10) }
    else
      match t.mode with
      | some .arb =>
        { chosen_strategy := .ouArb, risk_mode := .defensive
          reason := { base := .arbOpportunity, note := noteN }, confidence := 95/100 }
      | some .sniper =>
        { chosen_strategy := .sniper, risk_mode := .aggressive
          reason := { base := .sniperSignal, note := noteN }, confidence := 8/10 }
      | _ =>
        if f.spread > 2/1000 then
          { chosen_strategy := .ouArb, risk_mode := .defensive
            reason := { base := .arbSpread f.spread, note := noteN }
            confidence := min (1/2 + f.spread * 10) (99/100) }
        else if f.best_ask > 0 then
          { chosen_strategy := .sniper, risk_mode := .normal
            reason := { base := .sniperAvailable, note := noteN }, confidence := 6/10 }
        else
          { chosen_strategy := .ouArb, risk_mode := .normal
            reason := { base := .defaultFallback, note := noteN }, confidence := 1/2 }
  (s', d)

/-- Source `AIPortfolioManager.reset_state`: clear the history buffer. -/
def pmReset (s : PMState) : PMState := { s with history := [] }

/-- A freshly constructed `AIPortfolioManager(horizon)`. -/
def pmInit (horizon : ℕ) : PMState := { horizon := horizon, history := [] }

/-- Feed a sequence of ticks through `decide`, keeping only the state. -/
def pmFeed (s : PMState) : List Tick → PMState
  | [] => s
  | t :: rest => pmFeed (pmDecide s t none).1 rest

/-- The historical-pattern adjustment step of `decide_strategy_rule_based`:
only when `avg_return_3d` is present and `confidence_level` is medium or
high, a strong positive pattern biases toward sniper (overriding only an
otherwise-`ou_arb` choice on a mode-less tick) and forces aggressive risk,
and a strong negative pattern forces defensive risk. -/
def adjustByPattern (t : Tick) (d : DecisionResult) : DecisionResult :=
  match t.historical_pattern.bind (fun h => h.avg_return_3d) with
  | none => d
  | some v =>
    if t.historical_pattern.bind (fun h => h.confidence_level) = some ConfLevel.medium ∨
       t.historical_pattern.bind (fun h => h.confidence_level) = some ConfLevel.high then
      if v > 1/10 then
        { d with
          chosen_strategy :=
            if d.chosen_strategy = Strat.ouArb ∧ t.mode = none then Strat.sniper
            else d.chosen_strategy
          risk_mode := .aggressive }
      else if v < -(1/20) then { d with risk_mode := .defensive }
      else d
    else d

/-- The reason-suffix step of `decide_strategy_rule_based`: append the
pattern info when `avg_return_3d` is present and `pattern_name` truthy. -/
def appendPatternReason (t : Tick) (d : DecisionResult) : DecisionResult :=
  match t.historical_pattern.bind (fun h => h.avg_return_3d),
        t.historical_pattern.bind (fun h => h.pattern_name) with
  | some v, some nm =>
    if nm = "" then d
    else
      { d with
        reason :=
          { d.reason with
            histSuffix :=
              some (nm, v, t.historical_pattern.bind (fun h => h.confidence_level)) } }
  | _, _ => d

/-- Source `decide_strategy_rule_based`: the regime decision, then the
historical-pattern adjustment, then the reason suffix. -/
def decideStrategyRuleBased (s : PMState) (t : Tick) (note : Option String) :
    PMState × DecisionResult :=
  ((pmDecide s t note).1,
   appendPatternReason t (adjustByPattern t (pmDecide s t note).2))

/-- Source `decide_strategy` on the rule-based fast path (`use_llm` resolved to
false: the `AI_PM_USE_LLM` environment default is `"0"`). -/
def decideStrategy (s : PMState) (t : Tick) : PMState × DecisionResult :=
  decideStrategyRuleBased s t none

/-- Source `StrategyRouter.routing_stats`: counters keyed `"ou_arb"`, `"sniper"`,
`"none"` (the last is exposed as `no_action_count`). -/
structure RoutingStats where
  ouArb : ℕ := 0
  sniper : ℕ := 0
  noAction : ℕ := 0
deriving DecidableEq, Repr

/-- Source `RoutingMode`: which strategy was selected for the current tick. -/
inductive RoutingMode
  | noneMode
  | ouArbMode
  | sniperMode
deriving DecidableEq, Repr

/-- The mutable state of a `StrategyRouter` (the AI PM singleton state it
drives through `decide_strategy`, plus its own counters and memos). -/
structure RouterState where
  pm : PMState := {}
  stats : RoutingStats := {}
  last_routing_mode : RoutingMode := .noneMode
  last_decision : Option DecisionResult := none
deriving DecidableEq, Repr

/-- Source `StrategyRouter._check_ou_opportunity`: presence/positivity guards on
`pm_ask`/`op_bid`, then `OUArbStrategy.is_opportunity`. -/
def routerCheckOu (ps : OUArbParams) (t : Tick) : Bool :=
  match t.pm_ask, t.op_bid with
  | some pa, some ob =>
    if pa ≤ 0 ∨ ob ≤ 0 then false else ouIsOpportunity ps t
  | _, _ => false

/-- Source `StrategyRouter._check_sniper_opportunity`: a guard on
`best_ask or current_ask`, then `SniperStrategy.is_opportunity`. -/
def routerCheckSniper (ps : SniperParams) (t : Tick) : Bool :=
  match orQ t.best_ask t.current_ask with
  | some a => if a ≤ 0 then false else sniperIsOpportunity ps t
  | none => false

/-- Source `StrategyRouter.on_tick` (with `choose_strategy` inlined): get the AI PM
decision, map it to a child strategy, verify that strategy's opportunity
check, and either route to it or count a no-action tick.  The rule-based
decision always names one of the two children, so `choose_strategy` never
returns `None` here.  Order metadata annotation is not modelled. -/
def routerOnTick (ouPs : OUArbParams) (snPs : SniperParams) (rs : RouterState)
    (t : Tick) : RouterState × List OrderInstruction :=
  let ds := decideStrategy rs.pm t
  let rs0 : RouterState := { rs with pm := ds.1, last_decision := some ds.2 }
  match ds.2.chosen_strategy with
  | .ouArb =>
    if routerCheckOu ouPs t then
      ({ rs0 with
          last_routing_mode := .ouArbMode
          stats := { rs0.stats with ouArb := rs0.stats.ouArb + 1 } },
       ouOnTick ouPs t)
    else
      ({ rs0 with
          last_routing_mode := .noneMode
          stats := { rs0.stats with noAction := rs0.stats.noAction + 1 } },
       [])
  | .sniper =>
    if routerCheckSniper snPs t then
      ({ rs0 with
          last_routing_mode := .sniperMode
          stats := { rs0.stats with sniper := rs0.stats.sniper + 1 } },
       sniperOnTick snPs t)
    else
      ({ rs0 with
          last_routing_mode := .noneMode
          stats := { rs0.stats with noAction := rs0.stats.noAction + 1 } },
       [])

/-- The router packaged as an engine strategy (it is a `BaseStrategy`). -/
def routerStep (ouPs : OUArbParams) (snPs : SniperParams) :
    StrategyStep RouterState :=
  fun rs t => routerOnTick ouPs snPs rs t

/-- An absent-or-zero (Python-falsy) optional numeric field. -/
def falsyQ (o : Option ℚ) : Prop := o = none ∨ o = some 0

/-- Spec §8 Scenario C: an `"arb"`-mode tick with zero spread. -/
def tickScenarioC : Tick :=
  { mode := some Mode.arb, pm_ask := some (1/2), pm_bid := some (49/100),
    op_ask := some (51/100), op_bid := some (1/2) }

/-- Spec §8 P2: a tick with `best_ask = 0.48` (gap exactly at `min_gap`). -/
def tickAsk48 : Tick := { best_ask := some (48/100) }

/-- Spec §8 P2: a tick with `best_ask = 0.4801` (gap just below `min_gap`). -/
def tickAsk4801 : Tick := { best_ask := some (4801/10000) }

/-- A tick whose historical pattern has `avg_return_3d = -0.10` but only
low confidence. -/
def tickHistLow : Tick :=
  { historical_pattern :=
      some { avg_return_3d := some (-(1/10)),
             confidence_level := some ConfLevel.low } }

/-- A tick whose historical pattern has `avg_return_3d = 0.20` with high
confidence. -/
def tickHistPos : Tick :=
  { historical_pattern :=
      some { avg_return_3d := some (2/10),
             confidence_level := some ConfLevel.high } }

/-- A tick whose historical pattern has `avg_return_3d = -0.10` with medium
confidence. -/
def tickHistNeg : Tick :=
  { historical_pattern :=
      some { avg_return_3d := some (-(1/10)),
             confidence_level := some ConfLevel.medium } }

/-
  Helper lemmas.
-/

/-- A rejected order leaves the accounting state unchanged. -/
lemma executeOrder_none_state (a : Acct) (t : Tick) (i : ℕ) (ins : OrderInstruction) :
    (executeOrder a t i ins).2 = none → (executeOrder a t i ins).1 = a := by
  unfold executeOrder
  split
  · intro _; rfl
  · split
    · intro _; rfl
    · split
      · intro _; rfl
      · split
        · split
          · split
            · intro _; rfl
            · intro h; simp at h
          · intro h; simp at h
        · split
          · split
            · intro _; rfl
            · intro h; simp at h
          · intro h; simp at h

/-- Order execution preserves non-negativity of cash and position. -/
lemma executeOrder_nonneg (a : Acct) (t : Tick) (i : ℕ) (ins : OrderInstruction)
    (hc : 0 ≤ a.cash) (hp : 0 ≤ a.position) :
    0 ≤ (executeOrder a t i ins).1.cash ∧ 0 ≤ (executeOrder a t i ins).1.position := by
  unfold executeOrder
  split
  · exact ⟨hc, hp⟩
  · rename_i hsz
    push_neg at hsz
    split
    · exact ⟨hc, hp⟩
    · split
      · exact ⟨hc, hp⟩
      · rename_i p hple
        push_neg at hple
        split
        · split
          · split
            · exact ⟨hc, hp⟩
            · rename_i hq
              push_neg at hq
              constructor
              · simp only []
                rw [div_mul_cancel₀ _ (ne_of_gt hple), sub_self]
              · exact add_nonneg hp (le_of_lt hq)
          · rename_i hnc
            push_neg at hnc
            exact ⟨sub_nonneg.mpr hnc, add_nonneg hp (le_of_lt hsz)⟩
        · split
          · split
            · exact ⟨hc, hp⟩
            · rename_i hpos
              push_neg at hpos
              constructor
              · exact add_nonneg hc (mul_nonneg hp (le_of_lt hple))
              · simp [sub_self]
          · rename_i hns
            push_neg at hns
            exact ⟨add_nonneg hc (mul_nonneg (le_of_lt hsz) (le_of_lt hple)),
                   sub_nonneg.mpr hns⟩

/-- Executing a list of instructions preserves non-negativity. -/
lemma executeOrders_nonneg (t : Tick) (i : ℕ) :
    ∀ (l : List OrderInstruction) (a : Acct), 0 ≤ a.cash → 0 ≤ a.position →
      0 ≤ (executeOrders t i a l).1.cash ∧ 0 ≤ (executeOrders t i a l).1.position
  | [], a, hc, hp => ⟨hc, hp⟩
  | ins :: rest, a, hc, hp => by
    have h1 := executeOrder_nonneg a t i ins hc hp
    have h2 := executeOrders_nonneg t i rest (executeOrder a t i ins).1 h1.1 h1.2
    simpa [executeOrders] using h2

/-- If executing a list of instructions records no trade, the accounting
state is unchanged. -/
lemma executeOrders_no_trades (t : Tick) (i : ℕ) :
    ∀ (l : List OrderInstruction) (a : Acct),
      (executeOrders t i a l).2 = [] → (executeOrders t i a l).1 = a
  | [], a, _ => rfl
  | ins :: rest, a, h => by
    simp only [executeOrders] at h ⊢
    rcases List.append_eq_nil.mp h with ⟨h1, h2⟩
    have hnone : (executeOrder a t i ins).2 = none := by
      cases hx : (executeOrder a t i ins).2 <;> simp [hx] at h1 ⊢
    have hst := executeOrder_none_state a t i ins hnone
    rw [hst] at h2 ⊢
    exact executeOrders_no_trades t i rest a h2

/-- The engine appends exactly one equity sample per tick. -/
lemma runLoop_curve_length {σ : Type} (strat : StrategyStep σ) :
    ∀ (ticks : List Tick) (s : σ) (a : Acct) (i : ℕ),
      (runLoop strat s a i ticks).2.1.length = ticks.length
  | [], _, _, _ => rfl
  | t :: rest, s, a, i => by
    simp only [runLoop, List.length_cons]
    rw [runLoop_curve_length strat rest]

/-- The running accounting state stays non-negative throughout the loop. -/
lemma runLoop_nonneg {σ : Type} (strat : StrategyStep σ) :
    ∀ (ticks : List Tick) (s : σ) (a : Acct) (i : ℕ), 0 ≤ a.cash → 0 ≤ a.position →
      0 ≤ (runLoop strat s a i ticks).1.cash ∧ 0 ≤ (runLoop strat s a i ticks).1.position
  | [], _, _, _, hc, hp => ⟨hc, hp⟩
  | t :: rest, s, a, i, hc, hp => by
    have h1 := executeOrders_nonneg t i (strat s t).2 a hc hp
    have h2 := runLoop_nonneg strat rest (strat s t).1
      (executeOrders t i a (strat s t).2).1 (i + 1) h1.1 h1.2
    simpa [runLoop] using h2

/-- A run that records no trade leaves the accounting state unchanged and
marks every tick at the unchanged cash and position. -/
lemma runLoop_no_trades {σ : Type} (strat : StrategyStep σ) :
    ∀ (ticks : List Tick) (s : σ) (a : Acct) (i : ℕ),
      (runLoop strat s a i ticks).2.2 = [] →
      (runLoop strat s a i ticks).1 = a ∧
      (runLoop strat s a i ticks).2.1 =
        ticks.map (fun t => a.cash + a.position * getMarkPrice t)
  | [], _, _, _, _ => ⟨rfl, rfl⟩
  | t :: rest, s, a, i, h => by
    simp only [runLoop, List.map_cons] at h ⊢
    rcases List.append_eq_nil.mp h with ⟨h1, h2⟩
    have hst := executeOrders_no_trades t i (strat s t).2 a h1
    rw [hst] at h2 ⊢
    have ih := runLoop_no_trades strat rest (strat s t).1 a (i + 1) h2
    exact ⟨ih.1, by rw [ih.2]⟩

/-- The i-th equity sample of a run equals the cash plus position-value of
the accounting state after running the first `i + 1` ticks. -/
lemma runLoop_curve_get {σ : Type} (strat : StrategyStep σ) :
    ∀ (ticks : List Tick) (s : σ) (a : Acct) (idx : ℕ) (i : ℕ) (h : i < ticks.length),
      (runLoop strat s a idx ticks).2.1[i]? =
        some ((runLoop strat s a idx (ticks.take (i + 1))).1.cash +
              (runLoop strat s a idx (ticks.take (i + 1))).1.position *
                getMarkPrice (ticks.get ⟨i, h⟩))
  | [], _, _, _, i, h => absurd h (by simp)
  | t :: rest, s, a, idx, 0, h => by
    simp [runLoop]
  | t :: rest, s, a, idx, i + 1, h => by
    have ih := runLoop_curve_get strat rest (strat s t).1
      (executeOrders t idx a (strat s t).2).1 (idx + 1) i
      (by simpa using Nat.lt_of_succ_lt_succ h)
    simpa [runLoop] using ih

/-- Python `or` skips an absent-or-zero first operand. -/
lemma orQ_falsy {x : Option ℚ} (y : Option ℚ) (h : falsyQ x) : orQ x y = y := by
  rcases h with h | h <;> simp [orQ, h]

/-- Python `or` keeps a truthy first operand. -/
lemma orQ_truthy {x : Option ℚ} (y : Option ℚ) {v : ℚ} (hx : x = some v)
    (hv : v ≠ 0) : orQ x y = some v := by
  simp [orQ, hx, hv]

/-- Python `or`-with-default skips an absent-or-zero first operand. -/
lemma qOr_falsy {x : Option ℚ} (d : ℚ) (h : falsyQ x) : qOr x d = d := by
  rcases h with h | h <;> simp [qOr, h]

/-- Python `or`-with-default keeps a truthy first operand. -/
lemma qOr_truthy {x : Option ℚ} {v : ℚ} (d : ℚ) (hx : x = some v) (hv : v ≠ 0) :
    qOr x d = v := by
  simp [qOr, hx, hv]

/-- Source `getLast?.getD` on a list all of whose members equal the default. -/
lemma getLast?_getD_all_eq (l : List ℚ) (c : ℚ) (h : ∀ x ∈ l, x = c) :
    (l.getLast?).getD c = c := by
  cases hl : l.getLast? with
  | none => rfl
  | some x =>
    have hxo : x ∈ l.getLast? := by rw [hl]; rfl
    obtain ⟨hne, hx⟩ := List.mem_getLast?_eq_getLast hxo
    have hmem : x ∈ l := hx ▸ List.getLast_mem hne
    simp [h x hmem]

/-- The sniper entry branch, phrased as a single conditional. -/
lemma sniperEntry_eq (ps : SniperParams) (a gas size : ℚ) :
    sniperEntry ps a gas size =
      if ps.min_gap ≤ ps.target_price - a ∧
         0 < size / a * ps.target_price - (size + gas)
      then [⟨Side.buy, size / a, some a⟩] else [] := by
  unfold sniperEntry
  by_cases h1 : ps.target_price - a < ps.min_gap
  · rw [if_pos h1, if_neg]
    intro hcon
    exact absurd h1 (not_lt.mpr hcon.1)
  · rw [if_neg h1]
    push_neg at h1
    by_cases h2 : size / a * ps.target_price - (size + gas) ≤ 0
    · simp only [if_pos h2]
      rw [if_neg]
      intro hcon
      exact absurd hcon.2 (not_lt.mpr h2)
    · push_neg at h2
      simp only [if_neg (not_le.mpr h2)]
      rw [if_pos ⟨h1, h2⟩]

/-- The router's ou-opportunity check is at most `is_opportunity`. -/
lemma routerCheckOu_false (ps : OUArbParams) (t : Tick)
    (h : ouIsOpportunity ps t = false) : routerCheckOu ps t = false := by
  unfold routerCheckOu
  split
  · split
    · rfl
    · exact h
  · rfl

/-- The router's sniper-opportunity check is at most `is_opportunity`. -/
lemma routerCheckSniper_false (ps : SniperParams) (t : Tick)
    (h : sniperIsOpportunity ps t = false) : routerCheckSniper ps t = false := by
  unfold routerCheckSniper
  split
  · split
    · rfl
    · exact h
  · rfl

/-- The reason-suffix step never changes the chosen strategy. -/
lemma appendPatternReason_chosen (t : Tick) (d : DecisionResult) :
    (appendPatternReason t d).chosen_strategy = d.chosen_strategy := by
  unfold appendPatternReason
  split
  · split <;> rfl
  · rfl

/-- The reason-suffix step never changes the risk mode. -/
lemma appendPatternReason_risk (t : Tick) (d : DecisionResult) :
    (appendPatternReason t d).risk_mode = d.risk_mode := by
  unfold appendPatternReason
  split
  · split <;> rfl
  · rfl

/-- Feeding ticks through `decide` never changes the window capacity. -/
lemma pmFeed_horizon : ∀ (l : List Tick) (s : PMState), (pmFeed s l).horizon = s.horizon
  | [], _ => rfl
  | t :: rest, s => by
    rw [pmFeed, pmFeed_horizon rest]
    rfl

/-- Resetting any state reached from a fresh engine yields the fresh state. -/
lemma pmReset_pmFeed (hz : ℕ) (prior : List Tick) :
    pmReset (pmFeed (pmInit hz) prior) = pmInit hz := by
  have h := pmFeed_horizon prior (pmInit hz)
  unfold pmReset
  rw [h]
  rfl

/-
  Claim theorems.
-/

/-- C1: for every input tick sequence and every strategy, the engine's cash
and position are never negative at any point during a run.  Order execution
preserves non-negativity of cash and position; a BUY whose notional exceeds
available cash has its size reduced to `cash / price` (settling cash to
exactly 0); a BUY clamped to a non-positive size is rejected with no state
change; a SELL whose size exceeds the held position has its size reduced to
the position (settling the position to exactly 0); a SELL clamped to a
non-positive size is rejected; a non-positive requested size is rejected;
and every prefix of every run ends with non-negative cash and position. -/
theorem c1_cash_position_never_negative :
    (∀ (a : Acct) (t : Tick) (i : ℕ) (ins : OrderInstruction),
       0 ≤ a.cash → 0 ≤ a.position →
       0 ≤ (executeOrder a t i ins).1.cash ∧ 0 ≤ (executeOrder a t i ins).1.position)
  ∧ (∀ (a : Acct) (t : Tick) (i : ℕ) (ins : OrderInstruction) (p : ℚ),
       ins.side = Side.buy → effectivePrice t ins = some p → 0 < p →
       0 < ins.size → a.cash < ins.size * p → 0 < a.cash →
       (executeOrder a t i ins).1 = ⟨0, a.position + a.cash / p⟩)
  ∧ (∀ (a : Acct) (t : Tick) (i : ℕ) (ins : OrderInstruction) (p : ℚ),
       ins.side = Side.buy → effectivePrice t ins = some p → 0 < p →
       0 < ins.size → a.cash < ins.size * p → a.cash ≤ 0 →
       executeOrder a t i ins = (a, none))
  ∧ (∀ (a : Acct) (t : Tick) (i : ℕ) (ins : OrderInstruction) (p : ℚ),
       ins.side = Side.sell → effectivePrice t ins = some p → 0 < p →
       a.position < ins.size → 0 < a.position →
       (executeOrder a t i ins).1 = ⟨a.cash + a.position * p, 0⟩)
  ∧ (∀ (a : Acct) (t : Tick) (i : ℕ) (ins : OrderInstruction) (p : ℚ),
       ins.side = Side.sell → effectivePrice t ins = some p → 0 < p →
       0 < ins.size → a.position ≤ 0 →
       executeOrder a t i ins = (a, none))
  ∧ (∀ (a : Acct) (t : Tick) (i : ℕ) (ins : OrderInstruction),
       ins.size ≤ 0 → executeOrder a t i ins = (a, none))
  ∧ (∀ (σ : Type) (strat : StrategyStep σ) (s0 : σ) (cash0 : ℚ)
       (ticks : List Tick) (n : ℕ), 0 ≤ cash0 →
       0 ≤ (runEngine strat s0 cash0 (ticks.take n)).final_cash ∧
       0 ≤ (runEngine strat s0 cash0 (ticks.take n)).final_position) := by
  refine ⟨executeOrder_nonneg, ?_, ?_, ?_, ?_, ?_, ?_⟩
  · intro a t i ins p hside hep hp hsz hclamp hcash
    unfold executeOrder
    rw [if_neg (not_le.mpr hsz), hep]
    have h0 : a.cash - a.cash / p * p = 0 := by
      rw [div_mul_cancel₀ _ (ne_of_gt hp), sub_self]
    simp only [if_neg (not_le.mpr hp), hside, if_pos hclamp,
      if_neg (not_le.mpr (div_pos hcash hp)), h0]
  · intro a t i ins p hside hep hp hsz hclamp hcash
    unfold executeOrder
    rw [if_neg (not_le.mpr hsz), hep]
    have hdiv : a.cash / p ≤ 0 := div_nonpos_iff.mpr (Or.inr ⟨hcash, le_of_lt hp⟩)
    simp only [if_neg (not_le.mpr hp), hside, if_pos hclamp, if_pos hdiv]
  · intro a t i ins p hside hep hp hclamp hpos
    have hsz : ¬ ins.size ≤ 0 := not_le.mpr (lt_trans hpos hclamp)
    unfold executeOrder
    rw [if_neg hsz, hep]
    simp only [if_neg (not_le.mpr hp), hside, if_pos (show ins.size > a.position from hclamp),
      if_neg (not_le.mpr hpos), sub_self]
  · intro a t i ins p hside hep hp hsz hpos
    unfold executeOrder
    rw [if_neg (not_le.mpr hsz), hep]
    have hgt : ins.size > a.position := lt_of_le_of_lt hpos hsz
    simp only [if_neg (not_le.mpr hp), hside, if_pos hgt, if_pos hpos]
  · intro a t i ins hsz
    unfold executeOrder
    rw [if_pos hsz]
  · intro σ strat s0 cash0 ticks n h0
    have h := runLoop_nonneg strat (ticks.take n) s0 ⟨cash0, 0⟩ 0 h0 le_rfl
    simpa [runEngine, buildResult] using h

/-- Witness for C1 at concrete inputs: a BUY of notional 50 against cash 10
is clamped and settles to cash 0 and position 20; a one-tick run with that
order keeps cash non-negative. -/
theorem c1_witness :
    (executeOrder ⟨10, 0⟩ {} 0 ⟨Side.buy, 100, some (1/2)⟩).1 = ⟨0, 20⟩ ∧
    0 ≤ (runEngine (fun (s : Unit) (_ : Tick) => (s, [⟨Side.buy, 100, some (1/2)⟩]))
          () 10 ([({} : Tick)].take 1)).final_cash := by
  constructor
  · have h := c1_cash_position_never_negative.2.1 ⟨10, 0⟩ {} 0
      ⟨Side.buy, 100, some (1/2)⟩ (1/2) rfl (by norm_num [effectivePrice]) (by norm_num)
      (by norm_num) (by norm_num) (by norm_num)
    rw [h]
    norm_num [Acct.mk.injEq]
  · exact (c1_cash_position_never_negative.2.2.2.2.2.2 Unit
      (fun (s : Unit) (_ : Tick) => (s, [⟨Side.buy, 100, some (1/2)⟩])) () 10
      [({} : Tick)] 1 (by norm_num)).1

/-- C10: for every non-empty input tick sequence, the engine appends
exactly one equity sample per tick, so the equity curve's length equals
the number of ticks, regardless of how many orders were executed or
rejected on each tick. -/
theorem c10_curve_length_matches_ticks :
    ∀ (σ : Type) (strat : StrategyStep σ) (s0 : σ) (cash0 : ℚ)
      (ticks : List Tick), ticks ≠ [] →
      (runEngine strat s0 cash0 ticks).equity_curve.length = ticks.length := by
  intro σ strat s0 cash0 ticks _
  simpa [runEngine, buildResult] using runLoop_curve_length strat ticks s0 ⟨cash0, 0⟩ 0

/-- Witness for C10: a three-tick run (with no orders) has a three-sample
equity curve. -/
theorem c10_witness :
    (runEngine (fun (s : Unit) (_ : Tick) => (s, [])) () 1000
      [({} : Tick), {}, {}]).equity_curve.length = 3 := by
  have h := c10_curve_length_matches_ticks Unit (fun (s : Unit) (_ : Tick) => (s, []))
    () 1000 [({} : Tick), {}, {}] (by simp)
  simpa using h

/-- C2: every sampled element of the equity curve equals the engine's cash
after processing that tick plus the position after that tick times the
tick's mark price; the mark price is the explicit `mid_price` field when
present, else the average of the bid and ask chains when both are positive,
else a single available price (`price`, else the bid chain, else the ask
chain), else the hard default `0.5`. -/
theorem c2_equity_identity :
    (∀ (σ : Type) (strat : StrategyStep σ) (s0 : σ) (cash0 : ℚ)
       (ticks : List Tick) (i : ℕ) (h : i < ticks.length),
       (runEngine strat s0 cash0 ticks).equity_curve[i]? =
         some ((acctAfter strat s0 cash0 (ticks.take (i + 1))).cash +
               (acctAfter strat s0 cash0 (ticks.take (i + 1))).position *
                 getMarkPrice (ticks.get ⟨i, h⟩)))
  ∧ (∀ (t : Tick) (m : ℚ), t.mid_price = some m → getMarkPrice t = m)
  ∧ (∀ (t : Tick), t.mid_price = none → 0 < bidChain t → 0 < askChain t →
       getMarkPrice t = (bidChain t + askChain t) / 2)
  ∧ (∀ (t : Tick) (pv : ℚ), t.mid_price = none →
       ¬(0 < bidChain t ∧ 0 < askChain t) → t.price = some pv → pv ≠ 0 →
       getMarkPrice t = pv)
  ∧ (∀ (t : Tick), t.mid_price = none → ¬(0 < bidChain t ∧ 0 < askChain t) →
       falsyQ t.price → bidChain t ≠ 0 → getMarkPrice t = bidChain t)
  ∧ (∀ (t : Tick), t.mid_price = none → ¬(0 < bidChain t ∧ 0 < askChain t) →
       falsyQ t.price → bidChain t = 0 → askChain t ≠ 0 →
       getMarkPrice t = askChain t)
  ∧ (∀ (t : Tick), t.mid_price = none → falsyQ t.price →
       bidChain t = 0 → askChain t = 0 → getMarkPrice t = 1/2) := by
  refine ⟨?_, ?_, ?_, ?_, ?_, ?_, ?_⟩
  · intro σ strat s0 cash0 ticks i h
    have hg := runLoop_curve_get strat ticks s0 ⟨cash0, 0⟩ 0 i h
    simpa [runEngine, buildResult, acctAfter] using hg
  · intro t m hm
    simp [getMarkPrice, hm]
  · intro t hm hb ha
    simp [getMarkPrice, hm, if_pos (And.intro hb ha)]
  · intro t pv hm hno hpv hne
    rw [getMarkPrice, hm]
    simp only [if_neg hno]
    exact qOr_truthy _ hpv hne
  · intro t hm hno hfp hbne
    rw [getMarkPrice, hm]
    simp only [if_neg hno]
    rw [qOr_falsy _ hfp, if_neg hbne]
  · intro t hm hno hfp hb0 hane
    rw [getMarkPrice, hm]
    simp only [if_neg hno]
    rw [qOr_falsy _ hfp, if_pos hb0, if_neg hane]
  · intro t hm hfp hb0 ha0
    have hno : ¬(0 < bidChain t ∧ 0 < askChain t) := by
      rw [hb0]
      simp
    rw [getMarkPrice, hm]
    simp only [if_neg hno]
    rw [qOr_falsy _ hfp, if_pos hb0, if_pos ha0]

/-- Witness for C2: a one-tick no-order run at cash 100 with an explicit
mid price has equity sample 100, and the mark price resolves to that mid
price. -/
theorem c2_witness :
    (runEngine (fun (s : Unit) (_ : Tick) => (s, [])) () 100
      [({ mid_price := some (7/10) } : Tick)]).equity_curve[0]? = some 100 ∧
    getMarkPrice { mid_price := some (7/10) } = 7/10 := by
  constructor
  · have h := c2_equity_identity.1 Unit (fun (s : Unit) (_ : Tick) => (s, [])) () 100
      [({ mid_price := some (7/10) } : Tick)] 0 (by simp)
    rw [h]
    norm_num [acctAfter, runLoop, executeOrders]
  · exact c2_equity_identity.2.1 { mid_price := some (7/10) } (7/10) rfl

/-- C3: for fixed `pm_ask` the gross spread is monotone in `op_bid`; on any
tick with present positive `pm_ask` and `op_bid` the Arb evaluator returns
empty exactly when the spread is strictly below
`min_profit_rate * min_spread_multiplier` and returns the two-order
BUY-at-`pm_ask`, SELL-at-`op_bid` output exactly from the threshold on
(the comparison is inclusive at the threshold); and `is_opportunity`
agrees with non-emptiness of the evaluator's output on every such tick. -/
theorem c3_spread_threshold :
    (∀ (pmAsk b b' : ℚ), b ≤ b' → computeSpread pmAsk b ≤ computeSpread pmAsk b')
  ∧ (∀ (ps : OUArbParams) (t : Tick) (p b : ℚ),
       t.pm_ask = some p → 0 < p → t.op_bid = some b → 0 < b →
       (b - p < ps.min_profit_rate * ps.min_spread_multiplier → ouOnTick ps t = []) ∧
       (ps.min_profit_rate * ps.min_spread_multiplier ≤ b - p →
         ouOnTick ps t =
           [⟨Side.buy, ouSize t, some p⟩, ⟨Side.sell, ouSize t, some b⟩]) ∧
       (ouIsOpportunity ps t = true ↔ ouOnTick ps t ≠ [])) := by
  constructor
  · intro pmAsk b b' hbb
    simpa [computeSpread] using sub_le_sub_right hbb pmAsk
  · intro ps t p b hpa hp hob hb
    have hguard : ¬(p ≤ 0 ∨ b ≤ 0) := by
      push_neg
      exact ⟨hp, hb⟩
    refine ⟨?_, ?_, ?_⟩
    · intro hlt
      simp only [ouOnTick, hpa, hob, if_neg hguard, if_pos hlt]
    · intro hge
      simp only [ouOnTick, hpa, hob, if_neg hguard, if_neg (not_lt.mpr hge)]
    · simp only [ouIsOpportunity, ouOnTick, hpa, hob, Option.getD_some, if_neg hguard]
      by_cases hth : b - p < ps.min_profit_rate * ps.min_spread_multiplier
      · rw [if_pos hth]
        constructor
        · intro hd
          exact absurd (of_decide_eq_true hd) (not_le.mpr hth)
        · intro hne
          exact absurd rfl hne
      · rw [if_neg hth]
        constructor
        · intro _
          simp
        · intro _
          exact decide_eq_true (not_lt.mp hth)

/-- Witness for C3: with default parameters (threshold `0.0025`) a tick with
`pm_ask = 0.5` and `op_bid = 0.5025` sits exactly at the threshold and
yields the two-order output, with `is_opportunity` agreeing. -/
theorem c3_witness :
    ouOnTick {} { pm_ask := some (1/2), op_bid := some (201/400) } =
      [⟨Side.buy, 100, some (1/2)⟩, ⟨Side.sell, 100, some (201/400)⟩] ∧
    ouIsOpportunity {} { pm_ask := some (1/2), op_bid := some (201/400) } = true := by
  have h := c3_spread_threshold.2 {}
    { pm_ask := some (1/2), op_bid := some (201/400) } (1/2) (201/400)
    rfl (by norm_num) rfl (by norm_num)
  have hth : ({} : OUArbParams).min_profit_rate * ({} : OUArbParams).min_spread_multiplier ≤
      (201/400 : ℚ) - 1/2 := by
    show (5/1000 : ℚ) * (1/2) ≤ (201/400 : ℚ) - 1/2
    norm_num
  have h2 := h.2.1 hth
  constructor
  · rw [h2]
    norm_num [ouSize]
  · refine h.2.2.mpr ?_
    rw [h2]
    simp

/-- C4: with the default parameters (`target_price = 0.50`, `min_gap = 0.02`,
no gas cost), `best_ask = 0.48` yields exactly one BUY (the gap test is
inclusive) while `best_ask = 0.4801` yields nothing; in general, on a tick
with a positive resolved ask and no `has_position` flag, a single BUY of
`size / ask` shares is emitted iff `target_price - ask ≥ min_gap` and the
expected profit `size/ask * target_price - (size + gas)` is strictly
positive. -/
theorem c4_sniper_gap_boundary :
    (sniperOnTick {} tickAsk48 = [⟨Side.buy, 50 / (48/100), some (48/100)⟩])
  ∧ (sniperOnTick {} tickAsk4801 = [])
  ∧ (∀ (ps : SniperParams) (t : Tick) (a : ℚ),
       orQ t.best_ask t.current_ask = some a → 0 < a → t.has_position = false →
       sniperOnTick ps t =
         (if ps.min_gap ≤ ps.target_price - a ∧
             0 < t.position_size.getD ps.position_size / a * ps.target_price -
                 (t.position_size.getD ps.position_size + t.gas_cost_usd.getD 0)
          then [⟨Side.buy, t.position_size.getD ps.position_size / a, some a⟩]
          else [])) := by
  refine ⟨?_, ?_, ?_⟩
  · norm_num [sniperOnTick, tickAsk48, orQ, sniperEntry]
  · norm_num [sniperOnTick, tickAsk4801, orQ, sniperEntry]
  · intro ps t a hask ha hpos
    simp only [sniperOnTick, hask, if_neg (not_le.mpr ha)]
    cases hbb : orQ t.best_bid t.current_bid with
    | none =>
      simp only []
      exact sniperEntry_eq ps a _ _
    | some b =>
      simp only [hpos, Bool.false_eq_true, false_and, if_false]
      exact sniperEntry_eq ps a _ _

/-- Witness for C4's general rule: a tick with `best_ask = 0.48` and an
overridden position size of 10 yields one BUY of `10 / 0.48` shares. -/
theorem c4_witness :
    sniperOnTick {} { best_ask := some (48/100), position_size := some 10 } =
      [⟨Side.buy, 125/6, some (48/100)⟩] := by
  have h := c4_sniper_gap_boundary.2.2 {}
    { best_ask := some (48/100), position_size := some 10 } (48/100)
    (by norm_num [orQ]) (by norm_num) rfl
  rw [h]
  norm_num

/-- C5: whenever the Decision Engine's preferred strategy has no live
opportunity on the current tick (its `is_opportunity` is false), the Router
emits no orders, increments the no-action counter, and records no routing
(in particular it produces no output from the other evaluator); the
Scenario-C tick (`mode = "arb"`, zero spread) produces 0 orders and bumps
`no_action_count` to 1. -/
theorem c5_router_takes_no_action :
    (∀ (ouPs : OUArbParams) (snPs : SniperParams) (rs : RouterState) (t : Tick),
       (decideStrategy rs.pm t).2.chosen_strategy = Strat.ouArb →
       ouIsOpportunity ouPs t = false →
       (routerOnTick ouPs snPs rs t).2 = [] ∧
       (routerOnTick ouPs snPs rs t).1.stats.noAction = rs.stats.noAction + 1 ∧
       (routerOnTick ouPs snPs rs t).1.last_routing_mode = RoutingMode.noneMode)
  ∧ (∀ (ouPs : OUArbParams) (snPs : SniperParams) (rs : RouterState) (t : Tick),
       (decideStrategy rs.pm t).2.chosen_strategy = Strat.sniper →
       sniperIsOpportunity snPs t = false →
       (routerOnTick ouPs snPs rs t).2 = [] ∧
       (routerOnTick ouPs snPs rs t).1.stats.noAction = rs.stats.noAction + 1 ∧
       (routerOnTick ouPs snPs rs t).1.last_routing_mode = RoutingMode.noneMode)
  ∧ ((routerOnTick {} {} {} tickScenarioC).2 = [] ∧
     (routerOnTick {} {} {} tickScenarioC).1.stats.noAction = 1) := by
  refine ⟨?_, ?_, ?_⟩
  · intro ouPs snPs rs t hch hopp
    have hc := routerCheckOu_false ouPs t hopp
    refine ⟨?_, ?_, ?_⟩ <;> simp [routerOnTick, hch, hc]
  · intro ouPs snPs rs t hch hopp
    have hc := routerCheckSniper_false snPs t hopp
    refine ⟨?_, ?_, ?_⟩ <;> simp [routerOnTick, hch, hc]
  · constructor <;>
    · simp [routerOnTick, decideStrategy, decideStrategyRuleBased, adjustByPattern, appendPatternReason, pmDecide,
        extractFeatures, pushFeature, arbCount, sniperCount, tickScenarioC, qOr,
        orQ, routerCheckOu, ouIsOpportunity, LARGE_SPREAD, DEEP_DISCOUNT,
        List.countP, List.countP.go, HORIZON]
      norm_num

/-- Witness for C5: the Scenario-C tick through a fresh router, by the
general no-action rule. -/
theorem c5_witness :
    (routerOnTick {} {} {} tickScenarioC).2 = [] ∧
    (routerOnTick {} {} {} tickScenarioC).1.stats.noAction =
      ({} : RouterState).stats.noAction + 1 := by
  have h := c5_router_takes_no_action.1 {} {} {} tickScenarioC
    (by simp [decideStrategy, decideStrategyRuleBased, adjustByPattern, appendPatternReason, pmDecide, extractFeatures,
      pushFeature, arbCount, sniperCount, tickScenarioC, qOr, LARGE_SPREAD,
      DEEP_DISCOUNT, List.countP, List.countP.go, HORIZON])
    (by norm_num [ouIsOpportunity, tickScenarioC])
  exact ⟨h.1, h.2.1⟩

/-- C7: resetting the Decision Engine after any sequence of ticks restores
the freshly-constructed state (the regime window is cleared to empty), so
the decision for any subsequent tick equals a fresh engine's decision for
that same tick. -/
theorem c7_reset_isolates_runs :
    ∀ (hz : ℕ) (prior : List Tick) (t : Tick),
      (pmReset (pmFeed (pmInit hz) prior)).history = [] ∧
      pmDecide (pmReset (pmFeed (pmInit hz) prior)) t none =
        pmDecide (pmInit hz) t none ∧
      decideStrategy (pmReset (pmFeed (pmInit hz) prior)) t =
        decideStrategy (pmInit hz) t := by
  intro hz prior t
  rw [pmReset_pmFeed]
  exact ⟨rfl, rfl, rfl⟩

/-- C8 counterexample: the claim asserts that `avg_return_3d < -0.05`
forces defensive risk regardless of the rest, but on a tick whose pattern
has `avg_return_3d = -0.10` with confidence level `"low"`, the rule-based
path leaves the risk mode at `normal`: the code applies the adjustment
only when the confidence level is medium or high. -/
theorem c8_counterexample :
    (tickHistLow.historical_pattern.bind (fun h => h.avg_return_3d) =
       some (-(1/10)) ∧ (-(1/10) : ℚ) < -(1/20)) ∧
    (decideStrategyRuleBased (pmInit 5) tickHistLow none).2.risk_mode ≠
      RiskMode.defensive := by
  refine ⟨⟨rfl, by norm_num⟩, ?_⟩
  simp [decideStrategyRuleBased, adjustByPattern, appendPatternReason, pmDecide,
    extractFeatures, pushFeature, arbCount, sniperCount, tickHistLow, qOr,
    LARGE_SPREAD, DEEP_DISCOUNT, List.countP, List.countP.go, HORIZON, pmInit]
  norm_num
  decide

/-- C8 amended: when the pattern carries `avg_return_3d` and a medium or
high confidence level, `avg_return_3d > 0.10` switches the chosen strategy
to sniper exactly when it would otherwise be `ou_arb` on a mode-less tick
and forces aggressive risk; and `avg_return_3d < -0.05` (under the same
medium-or-high confidence condition) forces defensive risk regardless of
the chosen strategy. -/
theorem c8_pattern_adjustment :
    (∀ (s : PMState) (t : Tick) (hp : HistPattern) (v : ℚ) (cl : ConfLevel),
       t.historical_pattern = some hp → hp.avg_return_3d = some v →
       hp.confidence_level = some cl →
       (cl = ConfLevel.medium ∨ cl = ConfLevel.high) → 1/10 < v →
       (decideStrategyRuleBased s t none).2.chosen_strategy =
         (if (pmDecide s t none).2.chosen_strategy = Strat.ouArb ∧ t.mode = none
          then Strat.sniper else (pmDecide s t none).2.chosen_strategy) ∧
       (decideStrategyRuleBased s t none).2.risk_mode = RiskMode.aggressive)
  ∧ (∀ (s : PMState) (t : Tick) (hp : HistPattern) (v : ℚ) (cl : ConfLevel),
       t.historical_pattern = some hp → hp.avg_return_3d = some v →
       hp.confidence_level = some cl →
       (cl = ConfLevel.medium ∨ cl = ConfLevel.high) → v < -(1/20) →
       (decideStrategyRuleBased s t none).2.risk_mode = RiskMode.defensive) := by
  constructor
  · intro s t hp v cl hhp havg hcl hmh hv
    have hbind : t.historical_pattern.bind (fun h => h.avg_return_3d) = some v := by
      rw [hhp]
      simpa using havg
    have hbc : t.historical_pattern.bind (fun h => h.confidence_level) = some cl := by
      rw [hhp]
      simpa using hcl
    have hcond : t.historical_pattern.bind (fun h => h.confidence_level) =
        some ConfLevel.medium ∨
        t.historical_pattern.bind (fun h => h.confidence_level) =
        some ConfLevel.high := by
      rw [hbc]
      rcases hmh with h | h <;> simp [h]
    have hadj : adjustByPattern t (pmDecide s t none).2 =
        { (pmDecide s t none).2 with
          chosen_strategy :=
            if (pmDecide s t none).2.chosen_strategy = Strat.ouArb ∧ t.mode = none
            then Strat.sniper else (pmDecide s t none).2.chosen_strategy
          risk_mode := .aggressive } := by
      simp only [adjustByPattern, hbind, if_pos hcond, if_pos hv]
    constructor
    · rw [decideStrategyRuleBased, appendPatternReason_chosen, hadj]
    · rw [decideStrategyRuleBased, appendPatternReason_risk, hadj]
  · intro s t hp v cl hhp havg hcl hmh hv
    have hbind : t.historical_pattern.bind (fun h => h.avg_return_3d) = some v := by
      rw [hhp]
      simpa using havg
    have hbc : t.historical_pattern.bind (fun h => h.confidence_level) = some cl := by
      rw [hhp]
      simpa using hcl
    have hcond : t.historical_pattern.bind (fun h => h.confidence_level) =
        some ConfLevel.medium ∨
        t.historical_pattern.bind (fun h => h.confidence_level) =
        some ConfLevel.high := by
      rw [hbc]
      rcases hmh with h | h <;> simp [h]
    have hnotpos : ¬ (v > 1/10) := by
      push_neg
      linarith
    have hadj : adjustByPattern t (pmDecide s t none).2 =
        { (pmDecide s t none).2 with risk_mode := .defensive } := by
      simp only [adjustByPattern, hbind, if_pos hcond, if_neg hnotpos, if_pos hv]
    rw [decideStrategyRuleBased, appendPatternReason_risk, hadj]

/-- Witness for C8's amended rule: on fresh state, a strong positive
pattern with high confidence forces aggressive risk and a strong negative
pattern with medium confidence forces defensive risk. -/
theorem c8_witness :
    (decideStrategyRuleBased (pmInit 5) tickHistPos none).2.risk_mode =
      RiskMode.aggressive ∧
    (decideStrategyRuleBased (pmInit 5) tickHistNeg none).2.risk_mode =
      RiskMode.defensive := by
  constructor
  · exact (c8_pattern_adjustment.1 (pmInit 5) tickHistPos
      { avg_return_3d := some (2/10), confidence_level := some ConfLevel.high }
      (2/10) ConfLevel.high rfl rfl rfl (Or.inr rfl) (by norm_num)).2
  · exact c8_pattern_adjustment.2 (pmInit 5) tickHistNeg
      { avg_return_3d := some (-(1/10)), confidence_level := some ConfLevel.medium }
      (-(1/10)) ConfLevel.medium rfl rfl rfl (Or.inl rfl) (by norm_num)

/-- C9: an order with no positive explicit price resolves its execution
price through the fixed fallback chain `best_ask → pm_ask → ask → price →
mid_price` for a BUY (each later field consulted only when the earlier
ones are absent or zero) and symmetrically `best_bid → op_bid → bid →
price → mid_price` for a SELL; when the chain resolves to no positive
price the order is rejected silently: no trade is recorded and cash and
position are unchanged. -/
theorem c9_execution_price_resolution :
    (∀ (a : Acct) (t : Tick) (i : ℕ) (ins : OrderInstruction),
       (ins.price = none ∨ ∃ p0, ins.price = some p0 ∧ p0 ≤ 0) →
       getExecutionPrice t ins.side = none →
       executeOrder a t i ins = (a, none))
  ∧ (∀ (t : Tick) (v : ℚ), t.best_ask = some v → 0 < v →
       getExecutionPrice t Side.buy = some v)
  ∧ (∀ (t : Tick) (v : ℚ), falsyQ t.best_ask → t.pm_ask = some v → 0 < v →
       getExecutionPrice t Side.buy = some v)
  ∧ (∀ (t : Tick) (v : ℚ), falsyQ t.best_ask → falsyQ t.pm_ask →
       t.ask = some v → 0 < v → getExecutionPrice t Side.buy = some v)
  ∧ (∀ (t : Tick) (v : ℚ), falsyQ t.best_ask → falsyQ t.pm_ask → falsyQ t.ask →
       t.price = some v → 0 < v → getExecutionPrice t Side.buy = some v)
  ∧ (∀ (t : Tick) (v : ℚ), falsyQ t.best_ask → falsyQ t.pm_ask → falsyQ t.ask →
       falsyQ t.price → t.mid_price = some v → 0 < v →
       getExecutionPrice t Side.buy = some v)
  ∧ (∀ (t : Tick) (v : ℚ), t.best_bid = some v → 0 < v →
       getExecutionPrice t Side.sell = some v)
  ∧ (∀ (t : Tick) (v : ℚ), falsyQ t.best_bid → t.op_bid = some v → 0 < v →
       getExecutionPrice t Side.sell = some v)
  ∧ (∀ (t : Tick) (v : ℚ), falsyQ t.best_bid → falsyQ t.op_bid →
       t.bid = some v → 0 < v → getExecutionPrice t Side.sell = some v)
  ∧ (∀ (t : Tick) (v : ℚ), falsyQ t.best_bid → falsyQ t.op_bid → falsyQ t.bid →
       t.price = some v → 0 < v → getExecutionPrice t Side.sell = some v)
  ∧ (∀ (t : Tick) (v : ℚ), falsyQ t.best_bid → falsyQ t.op_bid → falsyQ t.bid →
       falsyQ t.price → t.mid_price = some v → 0 < v →
       getExecutionPrice t Side.sell = some v) := by
  refine ⟨?_, ?_, ?_, ?_, ?_, ?_, ?_, ?_, ?_, ?_, ?_⟩
  · intro a t i ins hnp hres
    have hep : effectivePrice t ins = none := by
      unfold effectivePrice
      rcases hnp with h | ⟨p0, hp0, hle⟩
      · rw [h]
        exact hres
      · rw [hp0]
        show (if 0 < p0 then some p0 else getExecutionPrice t ins.side) = none
        rw [if_neg (not_lt.mpr hle)]
        exact hres
    unfold executeOrder
    by_cases hsz : ins.size ≤ 0
    · rw [if_pos hsz]
    · rw [if_neg hsz, hep]
  · intro t v h1 hv
    simp [getExecutionPrice, orQ_truthy _ h1 (ne_of_gt hv), hv]
  · intro t v h1 h2 hv
    simp [getExecutionPrice, orQ_falsy _ h1, orQ_truthy _ h2 (ne_of_gt hv), hv]
  · intro t v h1 h2 h3 hv
    simp [getExecutionPrice, orQ_falsy _ h1, orQ_falsy _ h2,
      orQ_truthy _ h3 (ne_of_gt hv), hv]
  · intro t v h1 h2 h3 h4 hv
    simp [getExecutionPrice, orQ_falsy _ h1, orQ_falsy _ h2, orQ_falsy _ h3,
      orQ_truthy _ h4 (ne_of_gt hv), hv]
  · intro t v h1 h2 h3 h4 h5 hv
    simp [getExecutionPrice, orQ_falsy _ h1, orQ_falsy _ h2, orQ_falsy _ h3,
      orQ_falsy _ h4, h5, hv]
  · intro t v h1 hv
    simp [getExecutionPrice, orQ_truthy _ h1 (ne_of_gt hv), hv]
  · intro t v h1 h2 hv
    simp [getExecutionPrice, orQ_falsy _ h1, orQ_truthy _ h2 (ne_of_gt hv), hv]
  · intro t v h1 h2 h3 hv
    simp [getExecutionPrice, orQ_falsy _ h1, orQ_falsy _ h2,
      orQ_truthy _ h3 (ne_of_gt hv), hv]
  · intro t v h1 h2 h3 h4 hv
    simp [getExecutionPrice, orQ_falsy _ h1, orQ_falsy _ h2, orQ_falsy _ h3,
      orQ_truthy _ h4 (ne_of_gt hv), hv]
  · intro t v h1 h2 h3 h4 h5 hv
    simp [getExecutionPrice, orQ_falsy _ h1, orQ_falsy _ h2, orQ_falsy _ h3,
      orQ_falsy _ h4, h5, hv]

/-- Witness for C9: an explicit-price-less order on a tick with no price
fields is rejected with the state unchanged, and a zero `best_ask` falls
through to `pm_ask`. -/
theorem c9_witness :
    executeOrder ⟨5, 5⟩ {} 0 ⟨Side.buy, 1, none⟩ = (⟨5, 5⟩, none) ∧
    getExecutionPrice { best_ask := some 0, pm_ask := some (3/10) } Side.buy =
      some (3/10) := by
  constructor
  · exact c9_execution_price_resolution.1 ⟨5, 5⟩ {} 0 ⟨Side.buy, 1, none⟩
      (Or.inl rfl) rfl
  · exact c9_execution_price_resolution.2.2.1
      { best_ask := some 0, pm_ask := some (3/10) } (3/10)
      (Or.inr rfl) rfl (by norm_num)

/-- On a tick with no fields at all, both opportunity checks fail, so the
router emits no orders whatever the decision was. -/
lemma routerOnTick_emptyTick (ouPs : OUArbParams) (snPs : SniperParams)
    (rs : RouterState) : (routerOnTick ouPs snPs rs ({} : Tick)).2 = [] := by
  have h1 : routerCheckOu ouPs ({} : Tick) = false := rfl
  have h2 : routerCheckSniper snPs ({} : Tick) = false := rfl
  unfold routerOnTick
  cases hch : (decideStrategy rs.pm ({} : Tick)).2.chosen_strategy <;>
    simp [hch, h1, h2]

/-- A router-driven run over any number of empty ticks records no trade. -/
lemma runLoop_router_empty (ouPs : OUArbParams) (snPs : SniperParams) :
    ∀ (n : ℕ) (rs : RouterState) (a : Acct) (i : ℕ),
      (runLoop (routerStep ouPs snPs) rs a i
        (List.replicate n ({} : Tick))).2.2 = []
  | 0, _, _, _ => rfl
  | n + 1, rs, a, i => by
    have hord := routerOnTick_emptyTick ouPs snPs rs
    simp only [List.replicate_succ, runLoop, routerStep] at hord ⊢
    rw [hord]
    simpa [executeOrders] using
      runLoop_router_empty ouPs snPs n (routerOnTick ouPs snPs rs {}).1 a (i + 1)

/-- C6: the engine returns a complete result equal to the initial state,
without raising, on an empty tick sequence and on any run in which no
trade executes; in particular, routing the same fieldless tick 10 times
from cash 1000 yields 0 trades, final equity 1000, zero return, and a flat
equity curve at 1000. -/
theorem c6_degenerate_run_initial_state :
    (∀ (σ : Type) (strat : StrategyStep σ) (s0 : σ) (cash0 : ℚ),
       (runEngine strat s0 cash0 []).total_trades = 0 ∧
       (runEngine strat s0 cash0 []).final_cash = cash0 ∧
       (runEngine strat s0 cash0 []).final_position = 0 ∧
       (runEngine strat s0 cash0 []).final_equity = cash0 ∧
       (runEngine strat s0 cash0 []).total_return = 0 ∧
       (runEngine strat s0 cash0 []).equity_curve = [])
  ∧ (∀ (σ : Type) (strat : StrategyStep σ) (s0 : σ) (cash0 : ℚ)
       (ticks : List Tick),
       (runEngine strat s0 cash0 ticks).trades = [] →
       (runEngine strat s0 cash0 ticks).total_trades = 0 ∧
       (runEngine strat s0 cash0 ticks).final_cash = cash0 ∧
       (runEngine strat s0 cash0 ticks).final_position = 0 ∧
       (runEngine strat s0 cash0 ticks).final_equity = cash0 ∧
       (runEngine strat s0 cash0 ticks).total_return = 0 ∧
       (runEngine strat s0 cash0 ticks).equity_curve =
         List.replicate ticks.length cash0)
  ∧ ((runEngine (routerStep {} {}) {} 1000
        (List.replicate 10 ({} : Tick))).total_trades = 0 ∧
     (runEngine (routerStep {} {}) {} 1000
        (List.replicate 10 ({} : Tick))).final_equity = 1000 ∧
     (runEngine (routerStep {} {}) {} 1000
        (List.replicate 10 ({} : Tick))).total_return = 0 ∧
     (runEngine (routerStep {} {}) {} 1000
        (List.replicate 10 ({} : Tick))).equity_curve =
       List.replicate 10 1000) := by
  have hmain : ∀ (σ : Type) (strat : StrategyStep σ) (s0 : σ) (cash0 : ℚ)
      (ticks : List Tick),
      (runEngine strat s0 cash0 ticks).trades = [] →
      (runEngine strat s0 cash0 ticks).total_trades = 0 ∧
      (runEngine strat s0 cash0 ticks).final_cash = cash0 ∧
      (runEngine strat s0 cash0 ticks).final_position = 0 ∧
      (runEngine strat s0 cash0 ticks).final_equity = cash0 ∧
      (runEngine strat s0 cash0 ticks).total_return = 0 ∧
      (runEngine strat s0 cash0 ticks).equity_curve =
        List.replicate ticks.length cash0 := by
    intro σ strat s0 cash0 ticks htr
    have h0 : (runLoop strat s0 ⟨cash0, 0⟩ 0 ticks).2.2 = [] := htr
    have h := runLoop_no_trades strat ticks s0 ⟨cash0, 0⟩ 0 h0
    have hcurve : (runLoop strat s0 ⟨cash0, 0⟩ 0 ticks).2.1 =
        List.replicate ticks.length cash0 := by
      rw [h.2]
      simp [List.map_const']
    have hfe : (runEngine strat s0 cash0 ticks).final_equity = cash0 := by
      show ((runLoop strat s0 ⟨cash0, 0⟩ 0 ticks).2.1.getLast?).getD cash0 = cash0
      rw [hcurve]
      exact getLast?_getD_all_eq _ _ (fun x hx => List.eq_of_mem_replicate hx)
    refine ⟨?_, ?_, ?_, hfe, ?_, hcurve⟩
    · show (runLoop strat s0 ⟨cash0, 0⟩ 0 ticks).2.2.length = 0
      rw [h0]
      rfl
    · show (runLoop strat s0 ⟨cash0, 0⟩ 0 ticks).1.cash = cash0
      rw [h.1]
    · show (runLoop strat s0 ⟨cash0, 0⟩ 0 ticks).1.position = 0
      rw [h.1]
    · show (if cash0 > 0 then
          (((runLoop strat s0 ⟨cash0, 0⟩ 0 ticks).2.1.getLast?).getD cash0 - cash0)
            / cash0 else 0) = 0
      rw [hcurve, getLast?_getD_all_eq _ _ (fun x hx => List.eq_of_mem_replicate hx)]
      simp
  refine ⟨?_, hmain, ?_⟩
  · intro σ strat s0 cash0
    have h := hmain σ strat s0 cash0 [] rfl
    simpa using h
  · have htr : (runEngine (routerStep {} {}) {} 1000
        (List.replicate 10 ({} : Tick))).trades = [] :=
      runLoop_router_empty {} {} 10 {} ⟨1000, 0⟩ 0
    have h := hmain RouterState (routerStep {} {}) {} 1000
      (List.replicate 10 ({} : Tick)) htr
    exact ⟨h.1, h.2.2.2.1, h.2.2.2.2.1, by simpa using h.2.2.2.2.2⟩

/-- Witness for C6: the no-trade rule applied to a concrete one-tick run
with no orders at cash 55. -/
theorem c6_witness :
    (runEngine (fun (s : Unit) (_ : Tick) => (s, [])) () 55
      [({} : Tick)]).final_equity = 55 ∧
    (runEngine (fun (s : Unit) (_ : Tick) => (s, [])) () 55
      [({} : Tick)]).total_trades = 0 := by
  have h := c6_degenerate_run_initial_state.2.1 Unit
    (fun (s : Unit) (_ : Tick) => (s, [])) () 55 [({} : Tick)] rfl
  exact ⟨h.2.2.2.1, h.1⟩

end NewsWave
